import Mathlib

/-!
# Verification of the message_slot character device

Shallow embedding of the message-slot kernel module (`message_slot.c`):
a registry of slots keyed by minor number, each slot holding a linked list
of channels, each channel retaining the last message written (at most
`MAX_MESSAGE_LENGTH` bytes).  Per-file-descriptor state records the
selected channel id and the censorship flag.

Modelling conventions:
* Bytes are `Nat` (a C `char`); all theorems quantify over arbitrary `Nat`
  lists, which subsumes genuine byte sequences.
* The C linked lists (`slot_t* next`, `channel_t* next`) are Lean `List`s,
  head = most recently prepended node, traversal = `List.find?`.
* A channel's fixed 128-byte backing array is the `message` field; `memcpy`
  of `n` bytes overwrites its first `n` entries and leaves the tail.  The
  contents `kmalloc` leaves in a fresh channel's array are indeterminate and
  never observed (the length field is 0 until the first write, and a write
  overwrites every byte that a later read can return), so they are modelled
  as zero bytes.
* `kmalloc` and `copy_from_user`/`copy_to_user` failures (`-ENOMEM`,
  `-EFAULT`) depend on the environment, not on the device state, and are
  modelled as succeeding; the remaining error paths are modelled exactly.
* Negative `errno` returns become `Except Err`; mutation of the global
  `slot_list_head` becomes explicit state passing.  `device_read` performs
  no store to any slot or channel in the C source, so its model returns
  only the bytes read and the caller's slot list is unchanged.
-/

namespace MessageSlot

/-- `MAX_MESSAGE_LENGTH` from `message_slot.h` (the spec fixes it at 128). -/
def MAX_MESSAGE_LENGTH : Nat := 128

/-- The error codes the device returns, as in the source:
`EINVAL` = InvalidChannel / invalid argument, `EMSGSIZE` = MessageTooLarge,
`EWOULDBLOCK` = ChannelEmpty, `ENOSPC` = BufferTooSmall. -/
inductive Err where
  | EINVAL
  | EMSGSIZE
  | EWOULDBLOCK
  | ENOSPC
  deriving DecidableEq

/-- `channel_t`: a channel id, the 128-byte message array, and the stored
message length (`size_t message_length`). -/
structure channel_t where
  id : Nat
  message : List Nat
  message_length : Nat
  deriving DecidableEq

/-- `slot_t`: a minor number and the linked list of channels. -/
structure slot_t where
  minor : Nat
  channels : List channel_t
  deriving DecidableEq

/-- `fd_state_t`: per-open-file state, the selected channel id
(0 = unselected) and the censorship flag. -/
structure fd_state_t where
  channel_id : Nat
  censorship_enabled : Bool
  deriving DecidableEq

/-- The ioctl commands `MSG_SLOT_CHANNEL` and `MSG_SLOT_SET_CEN`
(declared in the module's header); any other command id is invalid. -/
inductive IoctlCmd where
  | MSG_SLOT_CHANNEL
  | MSG_SLOT_SET_CEN
  | UNKNOWN
  deriving DecidableEq

/-- `device_open` (lines 92-128): find the slot for `minor` in the global
list, prepending a fresh empty slot when absent, and return the new list
together with freshly allocated fd state (`channel_id = 0`, censorship
disabled). -/
def device_open (slots : List slot_t) (minor : Nat) : List slot_t × fd_state_t :=
  let slots2 :=
    match slots.find? (fun s => s.minor == minor) with
    | some _ => slots
    | none => { minor := minor, channels := [] } :: slots
  (slots2, { channel_id := 0, censorship_enabled := false })

/-- `device_ioctl` (lines 131-159): set the channel id (0 rejected with
`-EINVAL`) or the censorship flag (only 0/1 accepted). -/
def device_ioctl (st : fd_state_t) (cmd : IoctlCmd) (param : Nat) :
    Except Err fd_state_t :=
  match cmd with
  | .MSG_SLOT_CHANNEL =>
    if param = 0 then .error .EINVAL
    else .ok { st with channel_id := param }
  | .MSG_SLOT_SET_CEN =>
    if param ≠ 0 ∧ param ≠ 1 then .error .EINVAL
    else .ok { st with censorship_enabled := param == 1 }
  | .UNKNOWN => .error .EINVAL

/-- `device_release` (lines 61-67): frees the fd state only; the slot list
is untouched. -/
def device_release (slots : List slot_t) : List slot_t :=
  slots

/-- The censorship loop of `device_write` (lines 223-228):
`for (i = 2; i < length; i += 3) kbuf[i] = '#';` — `'#'` is byte 35. -/
def censor_from (kbuf : List Nat) (i : Nat) : List Nat :=
  if h : i < kbuf.length then
    censor_from (kbuf.set i 35) (i + 3)
  else
    kbuf
termination_by kbuf.length - i
decreasing_by simp only [List.length_set]; omega

/-- The channel-list traversal of `device_write`/`device_read`
(lines 197-202 and 267-271): first channel whose id matches. -/
def find_channel (chans : List channel_t) (cid : Nat) : Option channel_t :=
  chans.find? (fun ch => ch.id == cid)

/-- A freshly kmalloc'ed channel (lines 204-208): id set, length 0; the
uninitialized array bytes are modelled as zeros (never observed, see
module docstring). -/
def new_channel (cid : Nat) : channel_t :=
  { id := cid
    message := List.replicate MAX_MESSAGE_LENGTH 0
    message_length := 0 }

/-- The store of `device_write` (lines 230-232):
`memcpy(channel->message, kbuf, length); channel->message_length = length;`
— the first `kbuf.length` array bytes are overwritten, the tail is stale. -/
def store_message (ch : channel_t) (kbuf : List Nat) : channel_t :=
  { ch with
    message := kbuf ++ ch.message.drop kbuf.length
    message_length := kbuf.length }

/-- Replace the first element satisfying `p` (the node the C pointer walk
stops at) by its image under `f`; all other nodes are untouched. -/
def update_first (p : α → Bool) (f : α → α) : List α → List α
  | [] => []
  | x :: xs => if p x then f x :: xs else x :: update_first p f xs

/-- The find-or-create plus store portion of `device_write`
(lines 196-232), acting on one slot: if the channel exists it is
overwritten in place, otherwise a fresh channel is prepended and written. -/
def slot_write (s : slot_t) (cid : Nat) (kbuf : List Nat) : slot_t :=
  match find_channel s.channels cid with
  | some _ =>
    { s with channels :=
        update_first (fun ch => ch.id == cid) (fun ch => store_message ch kbuf) s.channels }
  | none =>
    { s with channels := store_message (new_channel cid) kbuf :: s.channels }

/-- `device_write` (lines 163-235): reject an unselected channel with
`-EINVAL`; reject `length == 0 || length > MAX_MESSAGE_LENGTH` with
`-EMSGSIZE`; find the slot (`-EINVAL` if absent); censor the buffer when
the flag is set; store it into the (found or created) channel; return the
number of bytes written. -/
def device_write (slots : List slot_t) (st : fd_state_t) (minor : Nat)
    (buf : List Nat) : Except Err (List slot_t × Nat) :=
  if st.channel_id = 0 then .error .EINVAL
  else if buf.length = 0 ∨ MAX_MESSAGE_LENGTH < buf.length then .error .EMSGSIZE
  else
    match slots.find? (fun s => s.minor == minor) with
    | none => .error .EINVAL
    | some _ =>
      let kbuf := if st.censorship_enabled then censor_from buf 2 else buf
      .ok (update_first (fun s => s.minor == minor)
            (fun s => slot_write s st.channel_id kbuf) slots,
          buf.length)

/-- `device_read` (lines 239-286): reject an unselected channel with
`-EINVAL`; find the slot (`-EINVAL` if absent); `-EWOULDBLOCK` when the
channel is absent or empty; `-ENOSPC` when the caller's capacity is below
the stored length; otherwise return the stored bytes.  The C function
stores nothing, so the slot list is unchanged. -/
def device_read (slots : List slot_t) (st : fd_state_t) (minor : Nat)
    (length : Nat) : Except Err (List Nat) :=
  if st.channel_id = 0 then .error .EINVAL
  else
    match slots.find? (fun s => s.minor == minor) with
    | none => .error .EINVAL
    | some slot =>
      match find_channel slot.channels st.channel_id with
      | none => .error .EWOULDBLOCK
      | some channel =>
        if channel.message_length = 0 then .error .EWOULDBLOCK
        else if length < channel.message_length then .error .ENOSPC
        else .ok (channel.message.take channel.message_length)

/-- The censorship transform as the specification words it: using 0-based
indexing (`i` is the index of the head of the remaining list), every byte
at index `i ≥ 2` with `(i - 2) % 3 = 0` is replaced by `'#'` (byte 35),
every other byte passes through unchanged. -/
def censor_spec_from (i : Nat) : List Nat → List Nat
  | [] => []
  | b :: bs =>
    (if 2 ≤ i ∧ (i - 2) % 3 = 0 then 35 else b) :: censor_spec_from (i + 1) bs

/-- Spec-worded censorship transform over a whole message. -/
def censor_spec (m : List Nat) : List Nat :=
  censor_spec_from 0 m

/-- Look up the stored channel record for `(minor, cid)` exactly the way
the device resolves it: first matching slot, then first matching channel. -/
def lookup_channel (slots : List slot_t) (minor cid : Nat) : Option channel_t :=
  match slots.find? (fun s => s.minor == minor) with
  | none => none
  | some s => find_channel s.channels cid

/-- The data-structure invariant of §3 of the design: every stored length
is at most `MAX_MESSAGE_LENGTH` (lengths are `Nat`, so `0 ≤` is implicit). -/
def channels_wf (slots : List slot_t) : Prop :=
  ∀ s ∈ slots, ∀ ch ∈ s.channels, ch.message_length ≤ MAX_MESSAGE_LENGTH

/-- The insert phase of `device_write`'s unsynchronized find-or-create
(lines 203-210): link a fresh zero-length channel at the head of the
slot's channel list.  In the source this runs with no lock held. -/
def insert_new_channel (chans : List channel_t) (cid : Nat) : List channel_t :=
  new_channel cid :: chans

/-! ## Helper lemmas -/

theorem censor_from_length (l : List Nat) (i : Nat) :
    (censor_from l i).length = l.length := by
  induction l, i using censor_from.induct with
  | case1 l i h ih =>
    rw [censor_from, dif_pos h, ih, List.length_set]
  | case2 l i h =>
    rw [censor_from, dif_neg h]

theorem censor_from_getElem (l : List Nat) (i j : Nat) :
    (censor_from l i)[j]? =
      if i ≤ j ∧ (j - i) % 3 = 0 ∧ j < l.length then some 35 else l[j]? := by
  induction l, i using censor_from.induct with
  | case1 l i h ih =>
    rw [censor_from, dif_pos h, ih]
    by_cases hij : i = j
    · subst hij
      have hc1 : i ≤ i ∧ (i - i) % 3 = 0 ∧ i < l.length := by omega
      have hc2 : ¬(i + 3 ≤ i ∧ (i - (i + 3)) % 3 = 0 ∧ i < (l.set i 35).length) := by
        omega
      rw [if_pos hc1, if_neg hc2, List.getElem?_set_self h]
    · rw [List.length_set, List.getElem?_set_ne hij]
      have : (i + 3 ≤ j ∧ (j - (i + 3)) % 3 = 0 ∧ j < l.length) ↔
          (i ≤ j ∧ (j - i) % 3 = 0 ∧ j < l.length) := by omega
      rw [if_congr this rfl rfl]
  | case2 l i h =>
    rw [censor_from, dif_neg h]
    have : ¬(i ≤ j ∧ (j - i) % 3 = 0 ∧ j < l.length) := by omega
    rw [if_neg this]

theorem censor_spec_from_getElem (l : List Nat) (i j : Nat) :
    (censor_spec_from i l)[j]? =
      if 2 ≤ i + j ∧ (i + j - 2) % 3 = 0 ∧ j < l.length then some 35 else l[j]? := by
  induction l generalizing i j with
  | nil => simp [censor_spec_from]
  | cons b bs ih =>
    cases j with
    | zero =>
      simp only [censor_spec_from, List.getElem?_cons_zero, List.length_cons]
      by_cases hc : 2 ≤ i ∧ (i - 2) % 3 = 0
      · rw [if_pos hc]
        have : 2 ≤ i + 0 ∧ (i + 0 - 2) % 3 = 0 ∧ 0 < bs.length + 1 := by omega
        rw [if_pos this]
      · rw [if_neg hc]
        have : ¬(2 ≤ i + 0 ∧ (i + 0 - 2) % 3 = 0 ∧ 0 < bs.length + 1) := by omega
        rw [if_neg this]
    | succ k =>
      simp only [censor_spec_from, List.getElem?_cons_succ, List.length_cons]
      rw [ih (i + 1) k]
      have : (2 ≤ i + 1 + k ∧ (i + 1 + k - 2) % 3 = 0 ∧ k < bs.length) ↔
          (2 ≤ i + (k + 1) ∧ (i + (k + 1) - 2) % 3 = 0 ∧ k + 1 < bs.length + 1) := by
        omega
      rw [if_congr this rfl rfl]

/-- The source's censorship loop computes exactly the transform the
specification describes. -/
theorem censor_from_eq_censor_spec (m : List Nat) :
    censor_from m 2 = censor_spec m := by
  apply List.ext_getElem?
  intro j
  rw [censor_from_getElem, censor_spec, censor_spec_from_getElem]
  have : (2 ≤ j ∧ (j - 2) % 3 = 0 ∧ j < m.length) ↔
      (2 ≤ 0 + j ∧ (0 + j - 2) % 3 = 0 ∧ j < m.length) := by omega
  rw [if_congr this rfl rfl]

theorem find?_update_first_pos (p : α → Bool) (f : α → α) (l : List α)
    (hf : ∀ a, p a = true → p (f a) = true) :
    (update_first p f l).find? p = (l.find? p).map f := by
  induction l with
  | nil => rfl
  | cons x xs ih =>
    by_cases hx : p x
    · rw [update_first, if_pos hx, List.find?_cons_of_pos _ (hf x hx),
        List.find?_cons_of_pos _ hx]
      rfl
    · rw [update_first, if_neg hx, List.find?_cons_of_neg _ hx,
        List.find?_cons_of_neg _ hx, ih]

theorem find?_update_first_neg (p q : α → Bool) (f : α → α) (l : List α)
    (hq : ∀ a, p a = true → q a = false)
    (hqf : ∀ a, p a = true → q (f a) = false) :
    (update_first p f l).find? q = l.find? q := by
  induction l with
  | nil => rfl
  | cons x xs ih =>
    by_cases hx : p x
    · rw [update_first, if_pos hx]
      have h1 : ¬ q (f x) = true := by simp [hqf x hx]
      have h2 : ¬ q x = true := by simp [hq x hx]
      rw [List.find?_cons_of_neg _ h1, List.find?_cons_of_neg _ h2]
    · rw [update_first, if_neg hx]
      by_cases hqx : q x
      · rw [List.find?_cons_of_pos _ hqx, List.find?_cons_of_pos _ hqx]
      · rw [List.find?_cons_of_neg _ hqx, List.find?_cons_of_neg _ hqx, ih]

theorem mem_update_first (p : α → Bool) (f : α → α) (l : List α) (x : α)
    (hx : x ∈ update_first p f l) : x ∈ l ∨ ∃ y, y ∈ l ∧ x = f y := by
  induction l with
  | nil => simp [update_first] at hx
  | cons z zs ih =>
    by_cases hz : p z
    · rw [update_first, if_pos hz] at hx
      rcases List.mem_cons.mp hx with h | h
      · exact Or.inr ⟨z, List.mem_cons_self z zs, h⟩
      · exact Or.inl (List.mem_cons_of_mem z h)
    · rw [update_first, if_neg hz] at hx
      rcases List.mem_cons.mp hx with h | h
      · exact Or.inl (h ▸ List.mem_cons_self z zs)
      · rcases ih h with h2 | ⟨y, hy, hxy⟩
        · exact Or.inl (List.mem_cons_of_mem z h2)
        · exact Or.inr ⟨y, List.mem_cons_of_mem z hy, hxy⟩

theorem slot_write_minor (s : slot_t) (cid : Nat) (kbuf : List Nat) :
    (slot_write s cid kbuf).minor = s.minor := by
  rw [slot_write]
  cases find_channel s.channels cid <;> rfl

theorem store_message_id (ch : channel_t) (kbuf : List Nat) :
    (store_message ch kbuf).id = ch.id :=
  rfl

/-- After `slot_write`, the channel lookup for the written id finds a
channel holding `kbuf` in its array prefix, with length `kbuf.length`. -/
theorem find_channel_slot_write (s : slot_t) (cid : Nat) (kbuf : List Nat) :
    ∃ rest, find_channel (slot_write s cid kbuf).channels cid =
      some { id := cid, message := kbuf ++ rest, message_length := kbuf.length } := by
  cases hfc : find_channel s.channels cid with
  | none =>
    refine ⟨(new_channel cid).message.drop kbuf.length, ?_⟩
    have hp : ((store_message (new_channel cid) kbuf).id == cid) = true := by
      simp [store_message, new_channel]
    simp only [slot_write, hfc]
    simp only [find_channel]
    rw [List.find?_cons_of_pos (p := fun ch : channel_t => ch.id == cid) _ hp]
    rfl
  | some ch =>
    have hfc2 : List.find? (fun c => c.id == cid) s.channels = some ch := hfc
    have hid : ch.id = cid := by
      have := List.find?_some (p := fun c : channel_t => c.id == cid) hfc2
      simpa using this
    refine ⟨ch.message.drop kbuf.length, ?_⟩
    simp only [slot_write, hfc]
    simp only [find_channel]
    rw [find?_update_first_pos (fun c : channel_t => c.id == cid)
        (fun c => store_message c kbuf) s.channels
        (fun a ha => by simpa [store_message] using ha)]
    rw [hfc2]
    have hmap : Option.map (fun c => store_message c kbuf) (some ch) =
        some (store_message ch kbuf) := rfl
    rw [hmap]
    simp [store_message, hid]

/-- `slot_write` does not disturb the lookup of any other channel id. -/
theorem find_channel_slot_write_ne (s : slot_t) (cid cid2 : Nat)
    (kbuf : List Nat) (h : cid2 ≠ cid) :
    find_channel (slot_write s cid kbuf).channels cid2 =
      find_channel s.channels cid2 := by
  cases hfc : find_channel s.channels cid with
  | none =>
    have hp : ¬ ((store_message (new_channel cid) kbuf).id == cid2) = true := by
      simp [store_message, new_channel]
      omega
    simp only [slot_write, hfc]
    simp only [find_channel]
    rw [List.find?_cons_of_neg (p := fun ch : channel_t => ch.id == cid2) _ hp]
  | some ch =>
    simp only [slot_write, hfc]
    simp only [find_channel]
    rw [find?_update_first_neg (fun c : channel_t => c.id == cid)
        (fun c : channel_t => c.id == cid2)
        (fun c => store_message c kbuf) s.channels ?_ ?_]
    · intro a ha
      have ha2 : a.id = cid := by simpa using ha
      simp only [beq_eq_false_iff_ne, ne_eq, ha2]
      omega
    · intro a ha
      have ha2 : a.id = cid := by simpa using ha
      simp only [store_message, beq_eq_false_iff_ne, ne_eq, ha2]
      omega

/-- Successful-path equation for `device_write`. -/
theorem device_write_eq_ok (slots : List slot_t) (st : fd_state_t) (minor : Nat)
    (buf : List Nat) (s : slot_t)
    (hc : st.channel_id ≠ 0) (h1 : buf.length ≠ 0)
    (h2 : buf.length ≤ MAX_MESSAGE_LENGTH)
    (hs : slots.find? (fun x => x.minor == minor) = some s) :
    device_write slots st minor buf =
      .ok (update_first (fun x => x.minor == minor)
            (fun x => slot_write x st.channel_id
              (if st.censorship_enabled then censor_from buf 2 else buf)) slots,
          buf.length) := by
  have hl : ¬(buf.length = 0 ∨ MAX_MESSAGE_LENGTH < buf.length) := by omega
  rw [device_write, if_neg hc, if_neg hl, hs]

/-- Inversion for a successful `device_write`. -/
theorem device_write_ok_inv (slots : List slot_t) (st : fd_state_t) (minor : Nat)
    (buf : List Nat) (slots2 : List slot_t) (n : Nat)
    (hw : device_write slots st minor buf = .ok (slots2, n)) :
    st.channel_id ≠ 0 ∧ buf.length ≠ 0 ∧ buf.length ≤ MAX_MESSAGE_LENGTH ∧
    n = buf.length ∧
    ∃ s, slots.find? (fun x => x.minor == minor) = some s ∧
      slots2 = update_first (fun x => x.minor == minor)
        (fun x => slot_write x st.channel_id
          (if st.censorship_enabled then censor_from buf 2 else buf)) slots := by
  rw [device_write] at hw
  by_cases hc : st.channel_id = 0
  · rw [if_pos hc] at hw
    exact absurd hw (by simp)
  rw [if_neg hc] at hw
  by_cases hl : buf.length = 0 ∨ MAX_MESSAGE_LENGTH < buf.length
  · rw [if_pos hl] at hw
    exact absurd hw (by simp)
  rw [if_neg hl] at hw
  cases hs : slots.find? (fun x => x.minor == minor) with
  | none =>
    rw [hs] at hw
    exact absurd hw (by simp)
  | some s =>
    rw [hs] at hw
    simp only [Except.ok.injEq, Prod.mk.injEq] at hw
    exact ⟨hc, by omega, by omega, hw.2.symm, s, rfl, hw.1.symm⟩

/-- Reading back after a successful write returns the censored (or plain)
bytes that the write stored. -/
theorem write_then_read (slots : List slot_t) (st : fd_state_t) (minor cap : Nat)
    (m : List Nat) (slots2 : List slot_t) (n : Nat)
    (hw : device_write slots st minor m = .ok (slots2, n))
    (hcap : m.length ≤ cap) :
    device_read slots2 st minor cap =
      .ok (if st.censorship_enabled then censor_from m 2 else m) := by
  obtain ⟨hc, h1, h2, hn, s, hs, hslots2⟩ := device_write_ok_inv slots st minor m slots2 n hw
  subst hslots2
  set kbuf := if st.censorship_enabled then censor_from m 2 else m with hkbuf
  have hklen : kbuf.length = m.length := by
    rw [hkbuf]
    split
    · exact censor_from_length m 2
    · rfl
  have hfind : (update_first (fun x => x.minor == minor)
      (fun x => slot_write x st.channel_id kbuf) slots).find?
        (fun x => x.minor == minor) =
      some (slot_write s st.channel_id kbuf) := by
    rw [find?_update_first_pos (fun x : slot_t => x.minor == minor)
        (fun x => slot_write x st.channel_id kbuf) slots
        (fun a ha => by simpa [slot_write_minor] using ha), hs]
    rfl
  obtain ⟨rest, hfc⟩ := find_channel_slot_write s st.channel_id kbuf
  rw [device_read, if_neg hc]
  simp only [hfind, hfc]
  rw [if_neg (by omega : ¬ kbuf.length = 0),
    if_neg (by omega : ¬ cap < kbuf.length), List.take_left]

/-! ## Claims -/

/-- C1: for every endpoint, every nonzero channel id, and every byte
sequence `m` with `1 ≤ len(m) ≤ 128`, writing `m` with censorship disabled
and then reading with capacity at least `len(m)` returns exactly `m`,
regardless of any message previously written to that channel (the initial
slot list is arbitrary, so any earlier message is superseded). -/
theorem C1_write_then_read_roundtrip (slots : List slot_t) (st : fd_state_t)
    (minor cap : Nat) (m : List Nat)
    (hc : st.channel_id ≠ 0)
    (hcen : st.censorship_enabled = false)
    (h1 : 1 ≤ m.length) (h2 : m.length ≤ MAX_MESSAGE_LENGTH)
    (hs : (slots.find? (fun x => x.minor == minor)).isSome = true)
    (hcap : m.length ≤ cap) :
    ∃ slots2, device_write slots st minor m = .ok (slots2, m.length) ∧
      device_read slots2 st minor cap = .ok m := by
  obtain ⟨s, hs2⟩ := Option.isSome_iff_exists.mp hs
  have hw := device_write_eq_ok slots st minor m s hc (by omega) h2 hs2
  refine ⟨_, hw, ?_⟩
  have hr := write_then_read slots st minor cap m _ m.length hw hcap
  simpa [hcen] using hr

theorem C1_witness :
    (fd_state_t.mk 1 false).channel_id ≠ 0 ∧
    (1 ≤ (List.length [65, 66, 67]) ∧ List.length [65, 66, 67] ≤ MAX_MESSAGE_LENGTH) ∧
    ∃ slots2,
      device_write [slot_t.mk 0 []] (fd_state_t.mk 1 false) 0 [65, 66, 67] =
        .ok (slots2, List.length [65, 66, 67]) ∧
      device_read slots2 (fd_state_t.mk 1 false) 0 3 = .ok [65, 66, 67] := by
  refine ⟨by decide, ⟨by decide, by decide⟩, ?_⟩
  exact C1_write_then_read_roundtrip [slot_t.mk 0 []] (fd_state_t.mk 1 false) 0 3
    [65, 66, 67] (by decide) rfl (by decide) (by decide) (by rfl) (by decide)

/-- C2: with the censorship flag enabled, a write stores exactly the
spec-worded transform of the input (every byte at 0-based index `i ≥ 2`
with `(i - 2) % 3 = 0` replaced by `'#'`, all other bytes unchanged), and
a read returns it; the witness instantiates this at `"ABCDEFGHI"`, read
back as `"AB#DE#GH#"`. -/
theorem C2_censorship_masks_positions (slots : List slot_t) (st : fd_state_t)
    (minor cap : Nat) (m : List Nat)
    (hc : st.channel_id ≠ 0)
    (hcen : st.censorship_enabled = true)
    (h1 : 1 ≤ m.length) (h2 : m.length ≤ MAX_MESSAGE_LENGTH)
    (hs : (slots.find? (fun x => x.minor == minor)).isSome = true)
    (hcap : m.length ≤ cap) :
    ∃ slots2, device_write slots st minor m = .ok (slots2, m.length) ∧
      device_read slots2 st minor cap = .ok (censor_spec m) := by
  obtain ⟨s, hs2⟩ := Option.isSome_iff_exists.mp hs
  have hw := device_write_eq_ok slots st minor m s hc (by omega) h2 hs2
  refine ⟨_, hw, ?_⟩
  have hr := write_then_read slots st minor cap m _ m.length hw hcap
  simpa [hcen, censor_from_eq_censor_spec] using hr

theorem C2_witness :
    (fd_state_t.mk 7 true).channel_id ≠ 0 ∧
    ∃ slots2,
      device_write [slot_t.mk 0 []] (fd_state_t.mk 7 true) 0
          [65, 66, 67, 68, 69, 70, 71, 72, 73] =
        .ok (slots2, List.length [65, 66, 67, 68, 69, 70, 71, 72, 73]) ∧
      device_read slots2 (fd_state_t.mk 7 true) 0 9 =
        .ok [65, 66, 35, 68, 69, 35, 71, 72, 35] := by
  refine ⟨by decide, ?_⟩
  obtain ⟨slots2, hw, hr⟩ := C2_censorship_masks_positions [slot_t.mk 0 []]
    (fd_state_t.mk 7 true) 0 9 [65, 66, 67, 68, 69, 70, 71, 72, 73]
    (by decide) rfl (by decide) (by decide) (by rfl) (by decide)
  refine ⟨slots2, hw, ?_⟩
  rw [hr]
  rfl

/-- C10: the censorship transform of the source (the loop writing `'#'` at
indices 2, 5, 8, …) is idempotent: applying it twice yields the same
bytes as applying it once, so re-writing an already-censored message with
censorship enabled stores it unchanged. -/
theorem C10_censor_idempotent (m : List Nat) :
    censor_from (censor_from m 2) 2 = censor_from m 2 := by
  apply List.ext_getElem?
  intro j
  rw [censor_from_getElem, censor_from_length, censor_from_getElem]
  by_cases hcond : 2 ≤ j ∧ (j - 2) % 3 = 0 ∧ j < m.length
  · rw [if_pos hcond, if_pos hcond]
  · rw [if_neg hcond, if_neg hcond]

/-- C4: on a channel storing a message of length `L ≠ 0`, a read with
capacity below `L` fails with `-ENOSPC` (BufferTooSmall); the stored
message is untouched (`device_read` performs no store in the source), so
a read on the same state with capacity at least `L` succeeds and returns
the stored `L` bytes. -/
theorem C4_buffer_too_small_nondestructive (slots : List slot_t)
    (st : fd_state_t) (minor cap1 cap2 : Nat) (s : slot_t) (ch : channel_t)
    (hc : st.channel_id ≠ 0)
    (hs : slots.find? (fun x => x.minor == minor) = some s)
    (hch : find_channel s.channels st.channel_id = some ch)
    (hlen : ch.message_length ≠ 0)
    (hcap1 : cap1 < ch.message_length)
    (hcap2 : ch.message_length ≤ cap2) :
    device_read slots st minor cap1 = .error .ENOSPC ∧
    device_read slots st minor cap2 = .ok (ch.message.take ch.message_length) := by
  constructor
  · rw [device_read, if_neg hc]
    simp only [hs, hch]
    rw [if_neg hlen, if_pos hcap1]
  · rw [device_read, if_neg hc]
    simp only [hs, hch]
    rw [if_neg hlen, if_neg (by omega : ¬ cap2 < ch.message_length)]

theorem C4_witness :
    (List.find? (fun x => x.minor == 0)
        [slot_t.mk 0 [channel_t.mk 3 [1, 2, 3, 4, 5, 6, 7, 8] 8]] =
      some (slot_t.mk 0 [channel_t.mk 3 [1, 2, 3, 4, 5, 6, 7, 8] 8])) ∧
    device_read [slot_t.mk 0 [channel_t.mk 3 [1, 2, 3, 4, 5, 6, 7, 8] 8]]
        (fd_state_t.mk 3 false) 0 4 = .error .ENOSPC ∧
    device_read [slot_t.mk 0 [channel_t.mk 3 [1, 2, 3, 4, 5, 6, 7, 8] 8]]
        (fd_state_t.mk 3 false) 0 8 = .ok [1, 2, 3, 4, 5, 6, 7, 8] := by
  refine ⟨by rfl, ?_⟩
  have h := C4_buffer_too_small_nondestructive
    [slot_t.mk 0 [channel_t.mk 3 [1, 2, 3, 4, 5, 6, 7, 8] 8]]
    (fd_state_t.mk 3 false) 0 4 8
    (slot_t.mk 0 [channel_t.mk 3 [1, 2, 3, 4, 5, 6, 7, 8] 8])
    (channel_t.mk 3 [1, 2, 3, 4, 5, 6, 7, 8] 8)
    (by decide) (by rfl) (by rfl) (by decide) (by decide) (by decide)
  exact ⟨h.1, h.2⟩

/-- C5: with a selected nonzero channel and an existing slot, a write of
length 0 fails with `-EMSGSIZE` (MessageTooLarge), a write of any length
greater than 128 fails with `-EMSGSIZE`, and a write of length exactly
128 succeeds returning 128. -/
theorem C5_write_length_boundaries (slots : List slot_t) (st : fd_state_t)
    (minor : Nat) (m0 mBig m128 : List Nat)
    (hc : st.channel_id ≠ 0)
    (hs : (slots.find? (fun x => x.minor == minor)).isSome = true)
    (h0 : m0.length = 0)
    (hBig : MAX_MESSAGE_LENGTH < mBig.length)
    (h128 : m128.length = MAX_MESSAGE_LENGTH) :
    device_write slots st minor m0 = .error .EMSGSIZE ∧
    device_write slots st minor mBig = .error .EMSGSIZE ∧
    ∃ slots2, device_write slots st minor m128 = .ok (slots2, MAX_MESSAGE_LENGTH) := by
  obtain ⟨s, hs2⟩ := Option.isSome_iff_exists.mp hs
  refine ⟨?_, ?_, ?_⟩
  · rw [device_write, if_neg hc, if_pos (Or.inl h0)]
  · rw [device_write, if_neg hc, if_pos (Or.inr hBig)]
  · have hw := device_write_eq_ok slots st minor m128 s hc
      (by rw [h128]; decide) (by simp [h128]) hs2
    rw [h128] at hw
    exact ⟨_, hw⟩

theorem C5_witness :
    (List.replicate 129 66).length > MAX_MESSAGE_LENGTH ∧
    (List.replicate 128 65).length = MAX_MESSAGE_LENGTH ∧
    device_write [slot_t.mk 0 []] (fd_state_t.mk 1 false) 0 [] = .error .EMSGSIZE ∧
    device_write [slot_t.mk 0 []] (fd_state_t.mk 1 false) 0 (List.replicate 129 66) =
      .error .EMSGSIZE ∧
    ∃ slots2, device_write [slot_t.mk 0 []] (fd_state_t.mk 1 false) 0
        (List.replicate 128 65) = .ok (slots2, MAX_MESSAGE_LENGTH) := by
  refine ⟨by simp [MAX_MESSAGE_LENGTH], by simp [MAX_MESSAGE_LENGTH], ?_⟩
  have h := C5_write_length_boundaries [slot_t.mk 0 []] (fd_state_t.mk 1 false) 0
    [] (List.replicate 129 66) (List.replicate 128 65)
    (by decide) (by rfl) (by decide)
    (by simp [MAX_MESSAGE_LENGTH]) (by simp [MAX_MESSAGE_LENGTH])
  exact ⟨h.1, h.2.1, h.2.2⟩

/-- C6: a freshly opened session has `channel_id = 0`, so before any
`MSG_SLOT_CHANNEL` ioctl both `device_write` and `device_read` fail with
`-EINVAL` (InvalidChannel); the failing write returns before touching any
channel, so the slot list is unchanged. -/
theorem C6_fresh_session_invalid_channel (slots : List slot_t)
    (minor cap : Nat) (buf : List Nat) :
    device_write (device_open slots minor).1 (device_open slots minor).2 minor buf =
      .error .EINVAL ∧
    device_read (device_open slots minor).1 (device_open slots minor).2 minor cap =
      .error .EINVAL := by
  have h2 : (device_open slots minor).2 = fd_state_t.mk 0 false := rfl
  constructor
  · rw [h2, device_write, if_pos rfl]
  · rw [h2, device_read, if_pos rfl]

/-- C7: a read on a selected channel that has never been written — the
channel either absent from the slot's list or present with stored length
0 — fails with `-EWOULDBLOCK` (ChannelEmpty), for any capacity. -/
theorem C7_read_never_written (slots : List slot_t) (st : fd_state_t)
    (minor cap : Nat) (s : slot_t)
    (hc : st.channel_id ≠ 0)
    (hs : slots.find? (fun x => x.minor == minor) = some s)
    (hempty : find_channel s.channels st.channel_id = none ∨
      ∃ ch, find_channel s.channels st.channel_id = some ch ∧
        ch.message_length = 0) :
    device_read slots st minor cap = .error .EWOULDBLOCK := by
  rw [device_read, if_neg hc]
  rcases hempty with hnone | ⟨ch, hch, hz⟩
  · simp only [hs, hnone]
  · simp only [hs, hch]
    rw [if_pos hz]

theorem C7_witness :
    (List.find? (fun x => x.minor == 0) [slot_t.mk 0 []] = some (slot_t.mk 0 [])) ∧
    device_read [slot_t.mk 0 []] (fd_state_t.mk 5 false) 0 128 =
      .error .EWOULDBLOCK := by
  refine ⟨by rfl, ?_⟩
  exact C7_read_never_written [slot_t.mk 0 []] (fd_state_t.mk 5 false) 0 128
    (slot_t.mk 0 []) (by decide) (by rfl) (Or.inl (by rfl))

/-- C8: a successful write to `(minor, st.channel_id)` leaves the stored
channel record — message bytes and length — of every other
`(minor2, cid2)` pair unchanged, whether under the same slot or a
different one. -/
theorem C8_channel_isolation (slots slots2 : List slot_t) (st : fd_state_t)
    (minor : Nat) (m : List Nat) (n : Nat)
    (hw : device_write slots st minor m = .ok (slots2, n))
    (minor2 cid2 : Nat)
    (hne : ¬(minor2 = minor ∧ cid2 = st.channel_id)) :
    lookup_channel slots2 minor2 cid2 = lookup_channel slots minor2 cid2 := by
  obtain ⟨hc, h1, h2, hn, s, hs, hsl⟩ := device_write_ok_inv slots st minor m slots2 n hw
  subst hsl
  by_cases hm : minor2 = minor
  · subst hm
    have hcid : cid2 ≠ st.channel_id := fun hcontr => hne ⟨rfl, hcontr⟩
    rw [lookup_channel, lookup_channel,
      find?_update_first_pos (fun x : slot_t => x.minor == minor2)
        (fun x => slot_write x st.channel_id
          (if st.censorship_enabled then censor_from m 2 else m)) slots
        (fun a ha => by simpa [slot_write_minor] using ha),
      hs]
    show find_channel (slot_write s st.channel_id
        (if st.censorship_enabled then censor_from m 2 else m)).channels cid2 =
      find_channel s.channels cid2
    exact find_channel_slot_write_ne s st.channel_id cid2 _ hcid
  · rw [lookup_channel, lookup_channel,
      find?_update_first_neg (fun x : slot_t => x.minor == minor)
        (fun x : slot_t => x.minor == minor2)
        (fun x => slot_write x st.channel_id
          (if st.censorship_enabled then censor_from m 2 else m)) slots
        (fun a ha => by
          have ha2 : a.minor = minor := by simpa using ha
          simp only [beq_eq_false_iff_ne, ne_eq, ha2]
          omega)
        (fun a ha => by
          have ha2 : a.minor = minor := by simpa using ha
          simp only [slot_write_minor, beq_eq_false_iff_ne, ne_eq, ha2]
          omega)]

theorem C8_witness :
    device_write [slot_t.mk 0 [channel_t.mk 2 [9, 9] 2]] (fd_state_t.mk 1 false) 0
        [7] =
      .ok ([slot_t.mk 0 [channel_t.mk 1 ((7 :: List.replicate 127 0)) 1,
             channel_t.mk 2 [9, 9] 2]], 1) ∧
    lookup_channel [slot_t.mk 0 [channel_t.mk 1 ((7 :: List.replicate 127 0)) 1,
        channel_t.mk 2 [9, 9] 2]] 0 2 =
      lookup_channel [slot_t.mk 0 [channel_t.mk 2 [9, 9] 2]] 0 2 := by
  constructor
  · rfl
  · exact C8_channel_isolation [slot_t.mk 0 [channel_t.mk 2 [9, 9] 2]]
      [slot_t.mk 0 [channel_t.mk 1 ((7 :: List.replicate 127 0)) 1,
        channel_t.mk 2 [9, 9] 2]]
      (fd_state_t.mk 1 false) 0 [7] 1 (by rfl) 0 2 (by decide)

/-- C9: the length invariant — every stored channel length lies in
`[0, MAX_MESSAGE_LENGTH]` (the lower bound is inherent to `Nat`) — is
preserved by every state-changing operation: `open` adds only a slot with
no channels, a successful `write` stores a length in `[1, 128]` (returned
as the byte count), a fresh channel starts at length 0, and `release`
leaves the registry untouched (`configure` and `read` store nothing). -/
theorem C9_length_invariant (slots slots2 : List slot_t) (st : fd_state_t)
    (minor cid n : Nat) (buf : List Nat)
    (h : channels_wf slots) :
    channels_wf (device_open slots minor).1 ∧
    (device_write slots st minor buf = .ok (slots2, n) →
      channels_wf slots2 ∧ 1 ≤ n ∧ n ≤ MAX_MESSAGE_LENGTH) ∧
    (new_channel cid).message_length = 0 ∧
    channels_wf (device_release slots) := by
  refine ⟨?_, ?_, rfl, h⟩
  · rw [device_open]
    cases hfind : slots.find? (fun s => s.minor == minor) with
    | some s => exact h
    | none =>
      intro x hx
      rcases List.mem_cons.mp hx with rfl | hx2
      · intro ch hch
        simp at hch
      · exact h x hx2
  · intro hw
    obtain ⟨hc, h1, h2, hn, s, hs, hsl⟩ :=
      device_write_ok_inv slots st minor buf slots2 n hw
    subst hsl
    refine ⟨?_, by omega, by omega⟩
    set kbuf := if st.censorship_enabled then censor_from buf 2 else buf with hkb
    have hklen : kbuf.length ≤ MAX_MESSAGE_LENGTH := by
      rw [hkb]
      split
      · rw [censor_from_length]
        exact h2
      · exact h2
    intro x hx
    rcases mem_update_first _ _ _ _ hx with hin | ⟨y, hy, rfl⟩
    · exact h x hin
    · intro ch hch
      cases hfc : find_channel y.channels st.channel_id with
      | some ch0 =>
        simp only [slot_write, hfc] at hch
        rcases mem_update_first _ _ _ _ hch with hin2 | ⟨z, hz, rfl⟩
        · exact h y hy ch hin2
        · simpa [store_message] using hklen
      | none =>
        simp only [slot_write, hfc] at hch
        rcases List.mem_cons.mp hch with rfl | hin2
        · simpa [store_message] using hklen
        · exact h y hy ch hin2

theorem C9_witness :
    channels_wf [slot_t.mk 0 []] ∧
    (channels_wf (device_open [slot_t.mk 0 []] 0).1 ∧
      (device_write [slot_t.mk 0 []] (fd_state_t.mk 1 false) 0 [7] =
          .ok ([slot_t.mk 0 [channel_t.mk 1 ((7 :: List.replicate 127 0)) 1]], 1) →
        channels_wf [slot_t.mk 0 [channel_t.mk 1 ((7 :: List.replicate 127 0)) 1]] ∧
          1 ≤ 1 ∧ 1 ≤ MAX_MESSAGE_LENGTH) ∧
      (new_channel 5).message_length = 0 ∧
      channels_wf (device_release [slot_t.mk 0 []])) := by
  have hwf : channels_wf [slot_t.mk 0 []] := by
    intro s hs ch hch
    rw [List.mem_singleton] at hs
    subst hs
    simp at hch
  exact ⟨hwf, C9_length_invariant [slot_t.mk 0 []]
    [slot_t.mk 0 [channel_t.mk 1 ((7 :: List.replicate 127 0)) 1]]
    (fd_state_t.mk 1 false) 0 5 1 [7] hwf⟩

/-- C3 (evidence of the code's divergence from the claimed locking
discipline): the source takes no lock anywhere — `device_write`'s
find-or-create (lines 196-211) and buffer store (lines 230-232) run
unsynchronized.  If two first-time writers to the same channel id both
execute the find phase (lines 197-202) before either executes the insert
phase (lines 203-210) — an interleaving nothing in the code prevents —
the slot's channel list ends up holding two records for the same id, the
duplicate-entry outcome the claimed lock-guarded find-or-insert is
supposed to make impossible. -/
theorem C3_unsynchronized_find_or_create_duplicates (cid : Nat) :
    find_channel [] cid = none ∧
    (insert_new_channel (insert_new_channel [] cid) cid).countP
      (fun ch => ch.id == cid) = 2 := by
  constructor
  · rfl
  · simp [insert_new_channel, new_channel, List.countP_cons]

end MessageSlot
